import Mathlib

/-!
Verification of the order-matching core in `_order_management.py`.

The embedding mirrors the Python source:
* `IncomingOrder` models an order object handed to the engine (market orders
  carry `price = none`, since `MarketOrder.__init__` never sets a `price`
  attribute).
* `BookOrder` models a resting entry of `bid_book` / `ask_book`; every entry
  that actually reaches a book through the engine's API carries a price.
* `FillRec` models an element of the `filled_orders` list.  The Python code
  appends the live order objects to that list and keeps mutating them, so a
  record's fields here are the fields those objects hold when the handler
  returns (e.g. quantity 0 for an object zeroed after being appended).
* Python exceptions that the modelled paths can raise are the constructors of
  `PyErr`; fallible operations return `Except PyErr`.
-/

inductive OrderSide where
  | BUY
  | SELL
deriving DecidableEq

inductive OrderType where
  | LIMIT
  | MARKET
  | IOC
deriving DecidableEq

/-- Python exceptions reachable in the modelled code paths:
`NewQuantityNotSmaller` (raised by `amend_quantity`), `TypeError`
(raised by `amend_quantity`'s ask branch doing `ask['quantity'] = quantity`
on an object), and `AttributeError` (raised by `sorted(..., key=lambda x:
(x.price, x.time))` when a priceless market order is in the list). -/
inductive PyErr where
  | newQuantityNotSmaller
  | typeError
  | attributeError
deriving DecidableEq

/-- An order as submitted to the engine.  `price = none` models a
`MarketOrder`, whose constructor sets no `price` attribute. -/
structure IncomingOrder where
  id : Nat
  symbol : String
  quantity : Nat
  price : Option Nat
  side : OrderSide
  time : Nat
  type : OrderType
deriving DecidableEq

/-- A resting entry of `bid_book` or `ask_book`.  All entries placed by the
engine's own operations carry a price (they are limit orders or copies of
limit orders); the one Python path that would append a priceless object
(`handle_market_order`'s leftover) dies in the subsequent sort and is
modelled by an `AttributeError` result instead. -/
structure BookOrder where
  id : Nat
  symbol : String
  quantity : Nat
  price : Nat
  side : OrderSide
  time : Nat
deriving DecidableEq

/-- An element of a handler's `filled_orders` result list, with the field
values the underlying Python object holds at return time.  `price` is an
`Option` because in `handle_market_order`'s equal-quantity branch the
incoming market order is appended without a `price` attribute ever being
set. -/
structure FillRec where
  id : Nat
  symbol : String
  quantity : Nat
  price : Option Nat
  side : OrderSide
  time : Nat
deriving DecidableEq

/-- The engine state: the two order books (`self.bid_book`, `self.ask_book`). -/
structure MatchingEngine where
  bid_book : List BookOrder
  ask_book : List BookOrder
deriving DecidableEq

/-- Strict "comes before" for Python's `sorted(bid_book, key=lambda x:
(-x.price, x.time))` in `insert_limit_order`. -/
def bidInsertLT (a b : BookOrder) : Bool :=
  decide (b.price < a.price) || (decide (a.price = b.price) && decide (a.time < b.time))

/-- Strict "comes before" for Python's `sorted(ask_book, key=lambda x:
(x.price, -x.time))` in `insert_limit_order` (note the descending time). -/
def askInsertLT (a b : BookOrder) : Bool :=
  decide (a.price < b.price) || (decide (a.price = b.price) && decide (b.time < a.time))

/-- Strict "comes before" for Python's `sorted(..., key=lambda x:
(x.price, x.time))` used by `handle_market_order` / `handle_ioc_order`
on whichever book they rebuilt. -/
def resortLT (a b : BookOrder) : Bool :=
  decide (a.price < b.price) || (decide (a.price = b.price) && decide (a.time < b.time))

/-- Stable insertion: the new element goes after every element it is not
strictly before, matching the stability of Python's `sorted`. -/
def insertStable (lt : BookOrder → BookOrder → Bool) (a : BookOrder) :
    List BookOrder → List BookOrder
  | [] => [a]
  | b :: l => if lt a b then a :: b :: l else b :: insertStable lt a l

/-- Python's stable `sorted` under a strict "comes before" relation. -/
def pySorted (lt : BookOrder → BookOrder → Bool) (l : List BookOrder) : List BookOrder :=
  l.foldl (fun acc x => insertStable lt x acc) []

/-- State carried through one crossing scan (`while self.xxx_book:` loop):
the incoming order's remaining `quantity`, its current `price` attribute
(mutable in the market / IOC handlers), the `temp_list`, and the
`filled_orders` accumulated so far. -/
structure ScanState where
  rem : Nat
  oprice : Option Nat
  temp : List BookOrder
  fills : List FillRec
deriving DecidableEq

/-- The record left in `filled_orders` for a book-side object whose final
quantity is `q`. -/
def fillOfBook (b : BookOrder) (q : Nat) : FillRec :=
  { id := b.id
    symbol := b.symbol
    quantity := q
    price := some b.price
    side := b.side
    time := b.time }

/-- The record left in `filled_orders` for the incoming order object, whose
final price attribute is `p` and final quantity is `q`. -/
def fillOfOrder (o : IncomingOrder) (p : Option Nat) (q : Nat) : FillRec :=
  { id := o.id
    symbol := o.symbol
    quantity := q
    price := p
    side := o.side
    time := o.time }

/-- The Python comparison `order.price <= book.price` used by the limit and
IOC handlers.  A `none` incoming price would raise `TypeError` in Python;
that case is unreachable because `LimitOrder` / `IOCOrder` construction
always sets a positive price, so it is given the inert value `false`. -/
def priceCross (op : Option Nat) (bp : Nat) : Bool :=
  match op with
  | some p => decide (p ≤ bp)
  | none => false

/-- One iteration of a crossing loop, processing the popped entry `b`.
`usePrice` selects the limit/IOC price test (the market handler matches on
symbol alone); `assign` selects the `order.price = book.price` assignment
the market and IOC handlers perform in their book-greater branch.
The quantities recorded in `fills` are the fields the appended objects hold
at return time: an object whose quantity is zeroed after `append` yields a
record with quantity 0. -/
def scanStep (o : IncomingOrder) (usePrice assign : Bool) (s : ScanState)
    (b : BookOrder) : ScanState :=
  if b.symbol ≠ o.symbol ∨ s.rem = 0 then
    { s with temp := s.temp ++ [b] }
  else if usePrice && !(priceCross s.oprice b.price) then
    { s with temp := s.temp ++ [b] }
  else if b.quantity < s.rem then
    { s with rem := s.rem - b.quantity, fills := s.fills ++ [fillOfBook b 0] }
  else if s.rem < b.quantity then
    let p' := if assign then some b.price else s.oprice
    { rem := 0
      oprice := p'
      temp := s.temp ++ [{ b with quantity := b.quantity - s.rem }]
      fills := s.fills ++ [fillOfOrder o p' 0, fillOfBook b s.rem] }
  else
    { s with
      rem := 0
      fills := s.fills ++ [fillOfBook b 0, fillOfOrder o s.oprice 0] }

/-- A full crossing scan over the snapshot of the opposite book. -/
def runScan (o : IncomingOrder) (usePrice assign : Bool)
    (books : List BookOrder) : ScanState :=
  books.foldl (scanStep o usePrice assign) ⟨o.quantity, o.price, [], []⟩

/-- The resting entry built from the incoming order object when it is placed
into a book with remaining quantity `rem` and price attribute `p`. -/
def restingOf (o : IncomingOrder) (rem : Nat) (p : Nat) : BookOrder :=
  { id := o.id
    symbol := o.symbol
    quantity := rem
    price := p
    side := o.side
    time := o.time }

/-- `MatchingEngine.insert_limit_order`: append to the side's book, then
re-sort the bid book by `(-price, time)` and the ask book by
`(price, -time)`. -/
def insert_limit_order (e : MatchingEngine) (b : BookOrder) : MatchingEngine :=
  let e1 : MatchingEngine :=
    match b.side with
    | .BUY => { e with bid_book := e.bid_book ++ [b] }
    | .SELL => { e with ask_book := e.ask_book ++ [b] }
  { bid_book := pySorted bidInsertLT e1.bid_book
    ask_book := pySorted askInsertLT e1.ask_book }

/-- `MatchingEngine.handle_limit_order`: scan the opposite book with the
`order.price <= book.price` test and no price assignment, set the opposite
book to `temp_list`, and insert any positive remainder via
`insert_limit_order` (which re-sorts both books).  Returns `filled_orders`. -/
def handle_limit_order (e : MatchingEngine) (o : IncomingOrder) :
    List FillRec × MatchingEngine :=
  match o.side with
  | .BUY =>
    let s := runScan o true false e.ask_book
    let e1 : MatchingEngine := { e with ask_book := s.temp }
    if 0 < s.rem then
      (s.fills, insert_limit_order e1 (restingOf o s.rem (s.oprice.getD 0)))
    else
      (s.fills, e1)
  | .SELL =>
    let s := runScan o true false e.bid_book
    let e1 : MatchingEngine := { e with bid_book := s.temp }
    if 0 < s.rem then
      (s.fills, insert_limit_order e1 (restingOf o s.rem (s.oprice.getD 0)))
    else
      (s.fills, e1)

/-- `MatchingEngine.handle_market_order`: scan the opposite book with no
price test and with the `order.price = book.price` assignment; any positive
remainder is appended to `temp_list` and the subsequent
`sorted(..., key=lambda x: (x.price, x.time))` raises `AttributeError` if
that leftover object has no `price` attribute. -/
def handle_market_order (e : MatchingEngine) (o : IncomingOrder) :
    Except PyErr (List FillRec × MatchingEngine) :=
  match o.side with
  | .BUY =>
    let s := runScan o false true e.ask_book
    if 0 < s.rem then
      match s.oprice with
      | none => .error .attributeError
      | some p =>
        .ok (s.fills,
          { e with ask_book := pySorted resortLT (s.temp ++ [restingOf o s.rem p]) })
    else
      .ok (s.fills, { e with ask_book := pySorted resortLT s.temp })
  | .SELL =>
    let s := runScan o false true e.bid_book
    if 0 < s.rem then
      match s.oprice with
      | none => .error .attributeError
      | some p =>
        .ok (s.fills,
          { e with bid_book := pySorted resortLT (s.temp ++ [restingOf o s.rem p]) })
    else
      .ok (s.fills, { e with bid_book := pySorted resortLT s.temp })

/-- `MatchingEngine.handle_ioc_order`: scan with the price test and the
price assignment; the rebuilt opposite book is re-sorted by
`(price, time)`; any remainder is dropped. -/
def handle_ioc_order (e : MatchingEngine) (o : IncomingOrder) :
    List FillRec × MatchingEngine :=
  match o.side with
  | .BUY =>
    let s := runScan o true true e.ask_book
    (s.fills, { e with ask_book := pySorted resortLT s.temp })
  | .SELL =>
    let s := runScan o true true e.bid_book
    (s.fills, { e with bid_book := pySorted resortLT s.temp })

/-- `MatchingEngine.handle_order`: dispatch on `order.type`.  The Python
function calls the handler but has no `return` statement, so its value is
`None` on every path; the handler's fill list is discarded. -/
def handle_order (e : MatchingEngine) (o : IncomingOrder) :
    Except PyErr (Option (List FillRec) × MatchingEngine) :=
  match o.type with
  | .LIMIT => .ok (none, (handle_limit_order e o).2)
  | .IOC => .ok (none, (handle_ioc_order e o).2)
  | .MARKET => (handle_market_order e o).map (fun r => (none, r.2))

/-- One pass of `amend_quantity`'s bid loop: every bid with the target id is
checked (`raise NewQuantityNotSmaller` if the new quantity is greater) and
otherwise assigned the new quantity in place. -/
def amendBidPass (i q : Nat) : List BookOrder → Except PyErr (List BookOrder)
  | [] => .ok []
  | b :: l =>
    if b.id = i then
      if b.quantity < q then
        .error .newQuantityNotSmaller
      else
        (amendBidPass i q l).map (fun l' => { b with quantity := q } :: l')
    else
      (amendBidPass i q l).map (fun l' => b :: l')

/-- First ask with the target id, mirroring `for ask in self.ask_book`. -/
def findById (i : Nat) : List BookOrder → Option BookOrder
  | [] => none
  | b :: l => if b.id = i then some b else findById i l

/-- `MatchingEngine.amend_quantity`: the bid loop amends in place (raising
`NewQuantityNotSmaller` only when the new quantity is strictly greater);
if no bid matched, the ask loop raises `NewQuantityNotSmaller` when the new
quantity is strictly greater and otherwise executes
`ask['quantity'] = quantity`, which is item assignment on a `LimitOrder`
object and raises `TypeError`.  The Python function has no reachable
`return`, so on success its value is `None`; the model returns the
resulting engine state. -/
def amend_quantity (e : MatchingEngine) (i q : Nat) : Except PyErr MatchingEngine :=
  if e.bid_book.any (fun b => b.id = i) then
    (amendBidPass i q e.bid_book).map (fun l => { e with bid_book := l })
  else
    match findById i e.ask_book with
    | none => .ok e
    | some a =>
      if a.quantity < q then .error .newQuantityNotSmaller
      else .error .typeError

/-- Delete the first entry with the given id, reporting whether one was
found — the `for index, order in enumerate(...)` / `del` / `return True`
pattern of `cancel_order`. -/
def removeFirstById (i : Nat) : List BookOrder → Option (List BookOrder)
  | [] => none
  | b :: l => if b.id = i then some l else (removeFirstById i l).map (fun l' => b :: l')

/-- `MatchingEngine.cancel_order`: search the bid book, then the ask book;
delete the first match and return `True`, else return `False`. -/
def cancel_order (e : MatchingEngine) (i : Nat) : Bool × MatchingEngine :=
  match removeFirstById i e.bid_book with
  | some l => (true, { e with bid_book := l })
  | none =>
    match removeFirstById i e.ask_book with
    | some l => (true, { e with ask_book := l })
    | none => (false, e)

/-- Total resting quantity of a book. -/
def sumQty (l : List BookOrder) : Nat :=
  (l.map (fun b => b.quantity)).sum

/-- The book the crossing scan consumes: asks for a BUY, bids for a SELL. -/
def oppBook (e : MatchingEngine) : OrderSide → List BookOrder
  | .BUY => e.ask_book
  | .SELL => e.bid_book

/-- The incoming order's own-side book. -/
def ownBook (e : MatchingEngine) : OrderSide → List BookOrder
  | .BUY => e.bid_book
  | .SELL => e.ask_book

/-- A sequence of submissions through `handle_order`, stopping at the first
raised exception. -/
def submitMany (e : MatchingEngine) : List IncomingOrder → Except PyErr MatchingEngine
  | [] => .ok e
  | o :: rest =>
    match handle_order e o with
    | .ok r => submitMany r.2 rest
    | .error err => .error err

/-- Modelled from the spec: the bid-side ordering the spec mandates,
price descending then arrival time ascending. -/
def specBidSorted : List BookOrder → Bool
  | [] => true
  | [_] => true
  | a :: b :: l =>
    (decide (b.price < a.price) || (decide (a.price = b.price) && decide (a.time ≤ b.time)))
      && specBidSorted (b :: l)

/-- Modelled from the spec: the ask-side ordering the spec mandates,
price ascending then arrival time ascending. -/
def specAskSorted : List BookOrder → Bool
  | [] => true
  | [_] => true
  | a :: b :: l =>
    (decide (a.price < b.price) || (decide (a.price = b.price) && decide (a.time ≤ b.time)))
      && specAskSorted (b :: l)

/-- Claim C1 (code bug): a `MarketOrder` (id 3, "A", qty 30, SELL) submitted
against an empty bid book keeps its whole quantity unmatched; instead of the
remainder being discarded and the call returning with both books free of
id 3, `handle_market_order` appends the priceless leftover object to the
book list and the `(price, time)` sort raises `AttributeError`, so the call
does not return at all. -/
theorem c1_market_remainder_not_discarded :
    handle_market_order ⟨[], []⟩ ⟨3, "A", 30, none, .SELL, 5, .MARKET⟩
        = .error .attributeError
      ∧ (runScan ⟨3, "A", 30, none, .SELL, 5, .MARKET⟩ false true []).rem = 30 :=
  ⟨rfl, rfl⟩

/-- Claim C2 (code bug): with a resting ask (id 10, price 155) and an
incoming BUY limit order (id 2, price 150), the code executes a match
(both legs appear in `filled_orders` and the resting entry leaves the book)
even though the claim's BUY condition `incoming.price ≥ resting.price`
fails (155 ≤ 150 is false): the source's test is
`order.price <= book.price` on both sides, inverted for BUY. -/
theorem c2_buy_price_condition_inverted :
    (handle_limit_order ⟨[], [⟨10, "A", 40, 155, .SELL, 1⟩]⟩
        ⟨2, "A", 40, some 150, .BUY, 2, .LIMIT⟩).1.map FillRec.id = [10, 2]
      ∧ (handle_limit_order ⟨[], [⟨10, "A", 40, 155, .SELL, 1⟩]⟩
        ⟨2, "A", 40, some 150, .BUY, 2, .LIMIT⟩).2.ask_book = []
      ∧ ¬ (155 ≤ 150) :=
  ⟨rfl, rfl, by decide⟩

/-- Claim C3 (code bug): in `handle_limit_order` the record emitted for the
incoming leg carries the incoming order's own limit price, not the resting
price: matching BUY limit (id 2, price 150) against resting ask (id 10,
price 160) yields fill prices `[160, 150]`, the second being the incoming
limit price although the resting price is 160. -/
theorem c3_incoming_fill_price_not_resting :
    (handle_limit_order ⟨[], [⟨10, "A", 40, 160, .SELL, 1⟩]⟩
        ⟨2, "A", 40, some 150, .BUY, 2, .LIMIT⟩).1.map FillRec.price
      = [some 160, some 150]
    ∧ some 150 ≠ some (160 : Nat) :=
  ⟨rfl, by decide⟩

/-- Claim C4 (code bug): reachable book states violate both mandated sort
invariants.  Submitting BUY limits at 100 then 90 and then an uncrossable
SELL IOC leaves the bid book re-sorted ascending by price (90 before 100),
and submitting two SELL limits at the same price leaves the ask book with
the later arrival first (`insert_limit_order` sorts asks by
`(price, -time)`). -/
theorem c4_reachable_books_violate_spec_order :
    submitMany ⟨[], []⟩
        [⟨1, "A", 5, some 100, .BUY, 1, .LIMIT⟩,
         ⟨2, "A", 5, some 90, .BUY, 2, .LIMIT⟩,
         ⟨3, "A", 5, some 200, .SELL, 3, .IOC⟩]
      = .ok ⟨[⟨2, "A", 5, 90, .BUY, 2⟩, ⟨1, "A", 5, 100, .BUY, 1⟩], []⟩
    ∧ specBidSorted [⟨2, "A", 5, 90, .BUY, 2⟩, ⟨1, "A", 5, 100, .BUY, 1⟩] = false
    ∧ submitMany ⟨[], []⟩
        [⟨4, "B", 5, some 50, .SELL, 1, .LIMIT⟩,
         ⟨5, "B", 5, some 50, .SELL, 2, .LIMIT⟩]
      = .ok ⟨[], [⟨5, "B", 5, 50, .SELL, 2⟩, ⟨4, "B", 5, 50, .SELL, 1⟩]⟩
    ∧ specAskSorted [⟨5, "B", 5, 50, .SELL, 2⟩, ⟨4, "B", 5, 50, .SELL, 1⟩] = false :=
  ⟨rfl, rfl, rfl, rfl⟩

/-- Claim C5 (code bug): when incoming quantity (100) strictly exceeds the
resting quantity (40) at an agreeing price, the resting entry is removed
and the incoming remainder (60) is reduced by exactly 40 as claimed, but
the emitted record for the resting leg carries quantity 0, not the
pre-match quantity 40: the source appends the live object to
`filled_orders` and zeroes its quantity afterwards. -/
theorem c5_resting_fill_record_zeroed :
    (handle_limit_order ⟨[], [⟨10, "A", 40, 149, .SELL, 1⟩]⟩
        ⟨2, "A", 100, some 149, .BUY, 2, .LIMIT⟩).1
      = [⟨10, "A", 0, some 149, .SELL, 1⟩]
    ∧ (handle_limit_order ⟨[], [⟨10, "A", 40, 149, .SELL, 1⟩]⟩
        ⟨2, "A", 100, some 149, .BUY, 2, .LIMIT⟩).2.ask_book = []
    ∧ (handle_limit_order ⟨[], [⟨10, "A", 40, 149, .SELL, 1⟩]⟩
        ⟨2, "A", 100, some 149, .BUY, 2, .LIMIT⟩).2.bid_book
      = [⟨2, "A", 60, 149, .BUY, 2⟩]
    ∧ (0 : Nat) ≠ 40 :=
  ⟨rfl, rfl, rfl, by decide⟩

/-- Claim C6 (code bug): `handle_order` has no `return` statement, so its
value is `None` (here `none`) even when the dispatched handler produced a
non-empty fill list: a fully matched market SELL yields two fill records
from `handle_market_order`, which `handle_order` discards. -/
theorem c6_handle_order_discards_fills :
    handle_order ⟨[⟨20, "A", 30, 150, .BUY, 1⟩], []⟩
        ⟨3, "A", 30, none, .SELL, 2, .MARKET⟩
      = .ok (none, ⟨[], []⟩)
    ∧ handle_market_order ⟨[⟨20, "A", 30, 150, .BUY, 1⟩], []⟩
        ⟨3, "A", 30, none, .SELL, 2, .MARKET⟩
      = .ok ([⟨20, "A", 0, some 150, .BUY, 1⟩, ⟨3, "A", 0, none, .SELL, 2⟩],
             ⟨[], []⟩)
    ∧ ([⟨20, "A", 0, some 150, .BUY, 1⟩, ⟨3, "A", 0, none, .SELL, 2⟩]
        : List FillRec) ≠ [] :=
  ⟨rfl, rfl, by decide⟩

/-- Claim C7 (code bug): amending an ask-side order (id 7, quantity 50)
down to 20 — which the claim says must succeed — raises `TypeError`
(`ask['quantity'] = quantity` is item assignment on a `LimitOrder` object),
and amending a bid-side order (id 20, quantity 100) to the equal quantity
100 — which the claim says must fail with `NewQuantityNotSmaller` —
succeeds, because the source raises only when the new quantity is strictly
greater. -/
theorem c7_amend_ask_crashes_and_equal_succeeds :
    amend_quantity ⟨[⟨20, "A", 100, 150, .BUY, 1⟩], [⟨7, "A", 50, 160, .SELL, 2⟩]⟩ 7 20
      = .error .typeError
    ∧ (20 : Nat) < 50
    ∧ amend_quantity ⟨[⟨20, "A", 100, 150, .BUY, 1⟩], [⟨7, "A", 50, 160, .SELL, 2⟩]⟩ 20 100
      = .ok ⟨[⟨20, "A", 100, 150, .BUY, 1⟩], [⟨7, "A", 50, 160, .SELL, 2⟩]⟩
    ∧ ¬ ((100 : Nat) < 100) :=
  ⟨rfl, by decide, rfl, by decide⟩

theorem sumQty_cons (b : BookOrder) (l : List BookOrder) :
    sumQty (b :: l) = b.quantity + sumQty l := by
  simp [sumQty]

theorem sumQty_append (l₁ l₂ : List BookOrder) :
    sumQty (l₁ ++ l₂) = sumQty l₁ + sumQty l₂ := by
  simp [sumQty]

theorem sumQty_singleton (b : BookOrder) : sumQty [b] = b.quantity := by
  simp [sumQty]

theorem insertStable_sumQty (lt : BookOrder → BookOrder → Bool) (a : BookOrder)
    (l : List BookOrder) :
    sumQty (insertStable lt a l) = a.quantity + sumQty l := by
  induction l with
  | nil => simp [insertStable, sumQty]
  | cons b l ih =>
    by_cases h : lt a b
    · simp [insertStable, h, sumQty_cons]
    · simp [insertStable, h, sumQty_cons, ih]
      omega

theorem pySorted_sumQty (lt : BookOrder → BookOrder → Bool) (l : List BookOrder) :
    sumQty (pySorted lt l) = sumQty l := by
  suffices h : ∀ acc, sumQty (l.foldl (fun acc x => insertStable lt x acc) acc)
      = sumQty acc + sumQty l by
    simpa [pySorted, sumQty] using h []
  induction l with
  | nil => intro acc; simp [sumQty]
  | cons b l ih =>
    intro acc
    simp only [List.foldl_cons]
    rw [ih, insertStable_sumQty, sumQty_cons]
    omega

theorem scanStep_sumQty (o : IncomingOrder) (up as : Bool) (s : ScanState)
    (b : BookOrder) :
    sumQty (scanStep o up as s b).temp + s.rem
      = sumQty s.temp + b.quantity + (scanStep o up as s b).rem := by
  unfold scanStep
  split_ifs with h1 h2 h3 h4 <;>
    simp [sumQty_append, sumQty_cons, sumQty] <;>
    omega

theorem scanFold_sumQty (o : IncomingOrder) (up as : Bool) :
    ∀ (books : List BookOrder) (s : ScanState),
      sumQty ((books.foldl (scanStep o up as) s)).temp + s.rem
        = sumQty s.temp + sumQty books + (books.foldl (scanStep o up as) s).rem := by
  intro books
  induction books with
  | nil => intro s; simp [sumQty]
  | cons b l ih =>
    intro s
    simp only [List.foldl_cons, sumQty_cons]
    have h1 := scanStep_sumQty o up as s b
    have h2 := ih (scanStep o up as s b)
    omega

theorem runScan_sumQty (o : IncomingOrder) (up as : Bool) (books : List BookOrder) :
    sumQty (runScan o up as books).temp + o.quantity
      = sumQty books + (runScan o up as books).rem := by
  have h := scanFold_sumQty o up as books ⟨o.quantity, o.price, [], []⟩
  simpa [runScan, sumQty] using h

theorem scanStep_oprice (o : IncomingOrder) (up as : Bool) (s : ScanState)
    (b : BookOrder) (h : 0 < s.rem → s.oprice = o.price) :
    0 < (scanStep o up as s b).rem → (scanStep o up as s b).oprice = o.price := by
  unfold scanStep
  split_ifs <;> intro hr <;>
    first
      | exact h hr
      | exact h (by dsimp at hr; omega)
      | exact absurd (by dsimp at hr; exact hr : (0 : Nat) < 0) (lt_irrefl 0)

theorem scanFold_oprice (o : IncomingOrder) (up as : Bool) :
    ∀ (books : List BookOrder) (s : ScanState),
      (0 < s.rem → s.oprice = o.price) →
      0 < (books.foldl (scanStep o up as) s).rem →
      (books.foldl (scanStep o up as) s).oprice = o.price := by
  intro books
  induction books with
  | nil => intro s h; exact h
  | cons b l ih =>
    intro s h
    simp only [List.foldl_cons]
    exact ih _ (scanStep_oprice o up as s b h)

theorem runScan_oprice (o : IncomingOrder) (up as : Bool) (books : List BookOrder)
    (h : 0 < (runScan o up as books).rem) :
    (runScan o up as books).oprice = o.price :=
  scanFold_oprice o up as books ⟨o.quantity, o.price, [], []⟩ (fun _ => rfl) h

/-- Claim C10: for a `MarketOrder` (an order whose `price` attribute was
never set), `handle_market_order` raises `AttributeError` exactly when the
crossing scan leaves a positive unmatched remainder — including submission
against an empty opposite book — because the priceless leftover is appended
to the book list and the `(price, time)` sort accesses its absent `price`;
when the scan fully consumes the order, the handler returns its fill list. -/
theorem c10_market_unfilled_raises (e : MatchingEngine) (o : IncomingOrder)
    (hp : o.price = none) :
    (handle_market_order e o = .error .attributeError
        ↔ 0 < (runScan o false true (oppBook e o.side)).rem)
      ∧ ((runScan o false true (oppBook e o.side)).rem = 0 →
          ∃ e', handle_market_order e o
            = .ok ((runScan o false true (oppBook e o.side)).fills, e')) := by
  cases hs : o.side
  case BUY =>
    simp only [oppBook]
    by_cases hr : 0 < (runScan o false true e.ask_book).rem
    · have hop := runScan_oprice o false true e.ask_book hr
      rw [hp] at hop
      have he : handle_market_order e o = .error .attributeError := by
        simp [handle_market_order, hs, hr, hop]
      exact ⟨by simp [he, hr], fun h0 => absurd h0 (Nat.pos_iff_ne_zero.mp hr)⟩
    · have he : handle_market_order e o
          = .ok ((runScan o false true e.ask_book).fills,
              { e with ask_book := pySorted resortLT (runScan o false true e.ask_book).temp }) := by
        simp [handle_market_order, hs, hr]
      exact ⟨by simp [he, hr], fun _ => ⟨_, he⟩⟩
  case SELL =>
    simp only [oppBook]
    by_cases hr : 0 < (runScan o false true e.bid_book).rem
    · have hop := runScan_oprice o false true e.bid_book hr
      rw [hp] at hop
      have he : handle_market_order e o = .error .attributeError := by
        simp [handle_market_order, hs, hr, hop]
      exact ⟨by simp [he, hr], fun h0 => absurd h0 (Nat.pos_iff_ne_zero.mp hr)⟩
    · have he : handle_market_order e o
          = .ok ((runScan o false true e.bid_book).fills,
              { e with bid_book := pySorted resortLT (runScan o false true e.bid_book).temp }) := by
        simp [handle_market_order, hs, hr]
      exact ⟨by simp [he, hr], fun _ => ⟨_, he⟩⟩

/-- Witness for claim C10: a priceless market order against an empty
opposite book leaves its whole quantity unmatched and the handler raises
`AttributeError`. -/
theorem c10_market_unfilled_raises_witness :
    (⟨4, "A", 7, none, .BUY, 1, .MARKET⟩ : IncomingOrder).price = none
      ∧ handle_market_order ⟨[], []⟩ ⟨4, "A", 7, none, .BUY, 1, .MARKET⟩
          = .error .attributeError :=
  ⟨rfl,
    (c10_market_unfilled_raises ⟨[], []⟩ ⟨4, "A", 7, none, .BUY, 1, .MARKET⟩ rfl).1.mpr
      (by decide)⟩

/-- Claim C8: conservation for a single crossing pass.  For a limit pass,
the quantity removed from the opposite-side book plus the quantity added to
the incoming order's own side equals the incoming order's original
quantity.  For an IOC pass, the removed quantity plus the (discarded)
remainder equals the original quantity and the own side is untouched.  For
a market pass that returns normally, the removed quantity is the whole
original quantity and the own side is untouched. -/
theorem c8_conservation (e : MatchingEngine) (o : IncomingOrder) :
    (sumQty (oppBook e o.side)
        + sumQty (ownBook (handle_limit_order e o).2 o.side)
      = sumQty (oppBook (handle_limit_order e o).2 o.side)
        + sumQty (ownBook e o.side) + o.quantity)
    ∧ (sumQty (oppBook e o.side) + (runScan o true true (oppBook e o.side)).rem
        = sumQty (oppBook (handle_ioc_order e o).2 o.side) + o.quantity
      ∧ ownBook (handle_ioc_order e o).2 o.side = ownBook e o.side)
    ∧ (o.price = none → ∀ fills e',
        handle_market_order e o = .ok (fills, e') →
          sumQty (oppBook e o.side) = sumQty (oppBook e' o.side) + o.quantity
          ∧ ownBook e' o.side = ownBook e o.side) := by
  cases hs : o.side
  case BUY =>
    simp only [oppBook, ownBook]
    refine ⟨?_, ⟨?_, ?_⟩, ?_⟩
    · have hsum := runScan_sumQty o true false e.ask_book
      by_cases hr : 0 < (runScan o true false e.ask_book).rem
      · simp only [handle_limit_order, hs, if_pos hr, insert_limit_order, restingOf]
        try dsimp only
        simp only [pySorted_sumQty, sumQty_append, sumQty_singleton]
        try dsimp only
        omega
      · simp only [handle_limit_order, hs, if_neg hr]
        try dsimp only
        omega
    · have hsum := runScan_sumQty o true true e.ask_book
      simp [handle_ioc_order, hs, pySorted_sumQty]
      omega
    · simp [handle_ioc_order, hs]
    · intro hp fills e' hok
      by_cases hr : 0 < (runScan o false true e.ask_book).rem
      · have hop := runScan_oprice o false true e.ask_book hr
        rw [hp] at hop
        have he : handle_market_order e o = .error .attributeError := by
          simp [handle_market_order, hs, hr, hop]
        rw [he] at hok
        cases hok
      · have hsum := runScan_sumQty o false true e.ask_book
        have he : handle_market_order e o
            = .ok ((runScan o false true e.ask_book).fills,
                { e with ask_book := pySorted resortLT (runScan o false true e.ask_book).temp }) := by
          simp [handle_market_order, hs, hr]
        rw [he] at hok
        obtain ⟨h1, h2⟩ := Prod.mk.injEq .. ▸ (Except.ok.inj hok)
        subst h2
        refine ⟨?_, rfl⟩
        simp [pySorted_sumQty]
        omega
  case SELL =>
    simp only [oppBook, ownBook]
    refine ⟨?_, ⟨?_, ?_⟩, ?_⟩
    · have hsum := runScan_sumQty o true false e.bid_book
      by_cases hr : 0 < (runScan o true false e.bid_book).rem
      · simp only [handle_limit_order, hs, if_pos hr, insert_limit_order, restingOf]
        try dsimp only
        simp only [pySorted_sumQty, sumQty_append, sumQty_singleton]
        try dsimp only
        omega
      · simp only [handle_limit_order, hs, if_neg hr]
        try dsimp only
        omega
    · have hsum := runScan_sumQty o true true e.bid_book
      simp [handle_ioc_order, hs, pySorted_sumQty]
      omega
    · simp [handle_ioc_order, hs]
    · intro hp fills e' hok
      by_cases hr : 0 < (runScan o false true e.bid_book).rem
      · have hop := runScan_oprice o false true e.bid_book hr
        rw [hp] at hop
        have he : handle_market_order e o = .error .attributeError := by
          simp [handle_market_order, hs, hr, hop]
        rw [he] at hok
        cases hok
      · have hsum := runScan_sumQty o false true e.bid_book
        have he : handle_market_order e o
            = .ok ((runScan o false true e.bid_book).fills,
                { e with bid_book := pySorted resortLT (runScan o false true e.bid_book).temp }) := by
          simp [handle_market_order, hs, hr]
        rw [he] at hok
        obtain ⟨h1, h2⟩ := Prod.mk.injEq .. ▸ (Except.ok.inj hok)
        subst h2
        refine ⟨?_, rfl⟩
        simp [pySorted_sumQty]
        omega

/-- Witness for claim C8: a market BUY for 5 units fully consumed by a
resting ask of 5 units returns normally, and the theorem's market conjunct
applies with its hypotheses discharged at this input. -/
theorem c8_conservation_witness :
    handle_market_order ⟨[], [⟨10, "A", 5, 7, .SELL, 1⟩]⟩
        ⟨3, "A", 5, none, .BUY, 2, .MARKET⟩
      = .ok ([⟨10, "A", 0, some 7, .SELL, 1⟩, ⟨3, "A", 0, none, .BUY, 2⟩], ⟨[], []⟩)
    ∧ (sumQty (oppBook ⟨[], [⟨10, "A", 5, 7, .SELL, 1⟩]⟩
          (⟨3, "A", 5, none, .BUY, 2, .MARKET⟩ : IncomingOrder).side)
        = sumQty (oppBook ⟨[], []⟩
            (⟨3, "A", 5, none, .BUY, 2, .MARKET⟩ : IncomingOrder).side)
          + (⟨3, "A", 5, none, .BUY, 2, .MARKET⟩ : IncomingOrder).quantity
      ∧ ownBook (⟨[], []⟩ : MatchingEngine)
            (⟨3, "A", 5, none, .BUY, 2, .MARKET⟩ : IncomingOrder).side
          = ownBook ⟨[], [⟨10, "A", 5, 7, .SELL, 1⟩]⟩
              (⟨3, "A", 5, none, .BUY, 2, .MARKET⟩ : IncomingOrder).side) :=
  ⟨rfl,
    (c8_conservation ⟨[], [⟨10, "A", 5, 7, .SELL, 1⟩]⟩
        ⟨3, "A", 5, none, .BUY, 2, .MARKET⟩).2.2 rfl _ _ rfl⟩

/-- The predicate "this book entry carries identifier `i`". -/
def hasId (i : Nat) (b : BookOrder) : Bool :=
  decide (b.id = i)

theorem removeFirstById_of_countP_zero (i : Nat) :
    ∀ l : List BookOrder, l.countP (hasId i) = 0 → removeFirstById i l = none := by
  intro l
  induction l with
  | nil => intro _; rfl
  | cons b l ih =>
    intro h
    rw [List.countP_cons] at h
    by_cases hb : b.id = i
    · simp [hasId, hb] at h
    · have h0 : l.countP (hasId i) = 0 := by
        simp only [hasId, hb, decide_False] at h
        omega
      simp [removeFirstById, hb, ih h0]

theorem eraseP_of_countP_zero (i : Nat) (l : List BookOrder)
    (h : l.countP (hasId i) = 0) : l.eraseP (hasId i) = l := by
  apply List.eraseP_of_forall_not
  intro a ha
  exact (List.countP_eq_zero.mp h) a ha

theorem removeFirstById_of_any (i : Nat) :
    ∀ l : List BookOrder, l.any (hasId i) = true →
      removeFirstById i l = some (l.eraseP (hasId i)) := by
  intro l
  induction l with
  | nil => intro h; simp at h
  | cons b l ih =>
    intro h
    by_cases hb : b.id = i
    · have hpb : hasId i b = true := by simp [hasId, hb]
      simp [removeFirstById, hb, List.eraseP_cons, hpb]
    · have hpb : hasId i b = false := by simp [hasId, hb]
      have hl : l.any (hasId i) = true := by
        rcases List.any_eq_true.mp h with ⟨x, hx, hpx⟩
        rcases List.mem_cons.mp hx with rfl | hx2
        · rw [hpb] at hpx; cases hpx
        · exact List.any_eq_true.mpr ⟨x, hx2, hpx⟩
      simp [removeFirstById, hb, ih hl, List.eraseP_cons, hpb]

theorem removeFirstById_countP (i : Nat) :
    ∀ (l l' : List BookOrder), removeFirstById i l = some l' →
      l'.countP (hasId i) + 1 = l.countP (hasId i) := by
  intro l
  induction l with
  | nil => intro l' h; cases h
  | cons b l ih =>
    intro l' h
    by_cases hb : b.id = i
    · simp [removeFirstById, hb] at h
      subst h
      simp [List.countP_cons, hasId, hb]
    · simp [removeFirstById, hb] at h
      rcases h with ⟨l0, hl0, hcons⟩
      subst hcons
      have := ih l0 hl0
      simp [List.countP_cons, hasId, hb]
      omega

theorem any_of_countP_pos (i : Nat) (l : List BookOrder)
    (h : 0 < l.countP (hasId i)) : l.any (hasId i) = true := by
  induction l with
  | nil => simp at h
  | cons b l ih =>
    rw [List.countP_cons] at h
    by_cases hb : hasId i b = true
    · simp [hb]
    · have h' : 0 < List.countP (hasId i) l := by
        rcases Nat.eq_zero_or_pos (List.countP (hasId i) l) with h0 | h0
        · rw [h0] at h
          simp [hb] at h
        · exact h0
      simp [hb, ih h']

/-- Claim C9: if identifier `i` rests in exactly one entry across the two
books, `cancel_order` returns found-and-removed (`true`) and removes
exactly that entry (each book becomes itself with the first `i`-entry
erased), and an immediately repeated cancel on the result returns
not-found (`false`) and changes nothing; not-found is an ordinary boolean
result of the total `cancel_order`, never an exception. -/
theorem c9_cancel_idempotent (e : MatchingEngine) (i : Nat)
    (h : (e.bid_book ++ e.ask_book).countP (hasId i) = 1) :
    ∃ e', cancel_order e i = (true, e')
      ∧ e'.bid_book = e.bid_book.eraseP (hasId i)
      ∧ e'.ask_book = e.ask_book.eraseP (hasId i)
      ∧ cancel_order e' i = (false, e') := by
  rw [List.countP_append] at h
  by_cases hb : e.bid_book.countP (hasId i) = 0
  · have hbn : removeFirstById i e.bid_book = none :=
      removeFirstById_of_countP_zero i _ hb
    have haany : e.ask_book.any (hasId i) = true :=
      any_of_countP_pos i _ (by omega)
    have has : removeFirstById i e.ask_book
        = some (e.ask_book.eraseP (hasId i)) :=
      removeFirstById_of_any i _ haany
    refine ⟨{ e with ask_book := e.ask_book.eraseP (hasId i) }, ?_, ?_, rfl, ?_⟩
    · simp [cancel_order, hbn, has]
    · exact (eraseP_of_countP_zero i _ hb).symm
    · have ha0 : (e.ask_book.eraseP (hasId i)).countP (hasId i) = 0 := by
        have := removeFirstById_countP i e.ask_book _ has
        omega
      have h2 : removeFirstById i (e.ask_book.eraseP (hasId i)) = none :=
        removeFirstById_of_countP_zero i _ ha0
      simp [cancel_order, hbn, h2]
  · have ha0 : e.ask_book.countP (hasId i) = 0 := by omega
    have hbany : e.bid_book.any (hasId i) = true :=
      any_of_countP_pos i _ (by omega)
    have hbs : removeFirstById i e.bid_book
        = some (e.bid_book.eraseP (hasId i)) :=
      removeFirstById_of_any i _ hbany
    refine ⟨{ e with bid_book := e.bid_book.eraseP (hasId i) }, ?_, rfl, ?_, ?_⟩
    · simp [cancel_order, hbs]
    · exact (eraseP_of_countP_zero i _ ha0).symm
    · have hb0 : (e.bid_book.eraseP (hasId i)).countP (hasId i) = 0 := by
        have := removeFirstById_countP i e.bid_book _ hbs
        omega
      have h1 : removeFirstById i (e.bid_book.eraseP (hasId i)) = none :=
        removeFirstById_of_countP_zero i _ hb0
      have h2 : removeFirstById i e.ask_book = none :=
        removeFirstById_of_countP_zero i _ ha0
      simp [cancel_order, h1, h2]

/-- Witness for claim C9: a book holding exactly one entry with id 1
satisfies the hypothesis, and the theorem applies to it. -/
theorem c9_cancel_idempotent_witness :
    ((([⟨1, "A", 5, 10, .BUY, 0⟩] : List BookOrder) ++ []).countP (hasId 1) = 1)
      ∧ ∃ e', cancel_order ⟨[⟨1, "A", 5, 10, .BUY, 0⟩], []⟩ 1 = (true, e')
          ∧ e'.bid_book = ([⟨1, "A", 5, 10, .BUY, 0⟩] : List BookOrder).eraseP (hasId 1)
          ∧ e'.ask_book = ([] : List BookOrder).eraseP (hasId 1)
          ∧ cancel_order e' 1 = (false, e') :=
  ⟨by decide, c9_cancel_idempotent ⟨[⟨1, "A", 5, 10, .BUY, 0⟩], []⟩ 1 (by decide)⟩
